import Mathlib

/-!
Verification of the wallet-ledger subsystem of the piggybankai backend
(`src/backend/src/controllers/paymentsController.ts`).

The controller is embedded shallowly: JavaScript numbers that flow through
`toNumber` are modelled by `JsRaw`/`JsVal` (finite values as exact rationals,
the non-finite values as explicit constructors), strings are Lean `String`s,
and the Prisma-backed store is a `St` record holding the user table, the
wallet table and the transaction table as lists.  Each HTTP handler becomes a
pure function from a pre-state and its request parameters to a post-state and
an `OpResult`.  Database row ids (cuid strings in the real schema) are
modelled as naturals drawn from a freshness counter.
-/

namespace PiggyBank

/-- The value of the local `n` in `toNumber`: a JavaScript number (exact
rationals stand in for finite doubles; `nan`, `posInf`, `negInf` are the
non-finite values) or the non-number `undefined` (a missing body field,
which `Number.isFinite` rejects). -/
inductive JsRaw where
  | finite (q : ℚ)
  | nan
  | posInf
  | negInf
  | undef
deriving DecidableEq

/-- `Number.isFinite`. -/
def JsRaw.isFinite : JsRaw → Bool
  | .finite _ => true
  | _ => false

/-- A JSON body field as seen by `toNumber`: either a JavaScript number-like
value or a string (which gets routed through `parseFloat`). -/
inductive JsVal where
  | num (n : JsRaw)
  | str (s : String)
deriving DecidableEq

/-- ASCII whitespace as skipped by `parseFloat` and `String.prototype.trim`. -/
def isJsWs (c : Char) : Bool :=
  c == ' ' || c == '\t' || c == '\n' || c == '\r'

/-- Value of a list of decimal digit characters. -/
def digitsVal (ds : List Char) : ℕ :=
  ds.foldl (fun a c => a * 10 + (c.toNat - 48)) 0

/-- JavaScript `parseFloat`: skip leading whitespace, read an optional sign,
then either the literal `Infinity` or the longest decimal-number prefix
(integer part, optional fraction, optional exponent); a string with no such
prefix parses to NaN.  Finite results are exact rationals. -/
def parseFloatJs (s : String) : JsRaw :=
  let cs0 := s.data.dropWhile isJsWs
  let neg : Bool := match cs0 with
    | '-' :: _ => true
    | _ => false
  let cs1 : List Char := match cs0 with
    | '-' :: t => t
    | '+' :: t => t
    | t => t
  if cs1.take 8 = "Infinity".data then
    if neg then JsRaw.negInf else JsRaw.posInf
  else
    let ip := cs1.takeWhile Char.isDigit
    let rest1 := cs1.dropWhile Char.isDigit
    let fp : List Char := match rest1 with
      | '.' :: t => t.takeWhile Char.isDigit
      | _ => []
    let rest2 : List Char := match rest1 with
      | '.' :: t => t.dropWhile Char.isDigit
      | r => r
    if ip.isEmpty && fp.isEmpty then JsRaw.nan
    else
      let mant : ℚ := (digitsVal ip : ℚ) + (digitsVal fp : ℚ) / (10 : ℚ) ^ fp.length
      let expo : ℤ := match rest2 with
        | e :: t =>
          if e == 'e' || e == 'E' then
            let esign : ℤ := match t with
              | '-' :: _ => -1
              | _ => 1
            let t2 : List Char := match t with
              | '-' :: r => r
              | '+' :: r => r
              | r => r
            let ed := t2.takeWhile Char.isDigit
            if ed.isEmpty then 0 else esign * (digitsVal ed : ℤ)
          else 0
        | [] => 0
      let scaled : ℚ :=
        if 0 ≤ expo then mant * (10 : ℚ) ^ expo.toNat
        else mant / (10 : ℚ) ^ (-expo).toNat
      JsRaw.finite (if neg then -scaled else scaled)

/-- The local `n` of `toNumber`: strings go through `parseFloat`, everything
else is taken as is. -/
def coerced : JsVal → JsRaw
  | .str s => parseFloatJs s
  | .num m => m

/-- `toNumber` from the controller: any non-finite value collapses to `0`. -/
def toNumber (value : JsVal) : ℚ :=
  match coerced value with
  | .finite q => q
  | _ => 0

/-- `String.prototype.trim` (ASCII whitespace model). -/
def jsTrim (s : String) : String :=
  String.mk (((s.data.dropWhile isJsWs).reverse.dropWhile isJsWs).reverse)

/-- `str.replace(/\D+/g, '')`: keep only decimal digits. -/
def digitsOnlyOf (s : String) : String :=
  String.mk (s.data.filter Char.isDigit)

/-- Prisma `endsWith` on strings. -/
def strEndsWith (s sfx : String) : Bool :=
  sfx.data.isSuffixOf s.data

/-- `sub` occurs as a contiguous run inside the list. -/
def containsSub (sub : List Char) : List Char → Bool
  | [] => sub.isEmpty
  | c :: cs => sub.isPrefixOf (c :: cs) || containsSub sub cs

/-- Prisma `contains` on strings. -/
def strContains (s sub : String) : Bool :=
  containsSub sub.data s.data

/-- `Set.add` followed by `Array.from`: insertion-ordered, duplicates kept out. -/
def addCandidate (l : List String) (x : String) : List String :=
  if x ∈ l then l else l ++ [x]

/-- `normalizePhoneCandidates` from the controller: the trimmed input, the
digits-only form and its `+`-prefixed variant (when non-empty), and the
`1`/`+1`-prefixed variants when the digits-only form has exactly 10 digits.
An empty (falsy) input yields no candidates. -/
def normalizePhoneCandidates (input : String) : List String :=
  if input = "" then []
  else
    let trimmed := jsTrim input
    let digitsOnly := digitsOnlyOf trimmed
    let c0 := addCandidate [] trimmed
    let c1 := if digitsOnly ≠ "" then addCandidate c0 digitsOnly else c0
    let c2 := if digitsOnly ≠ "" then addCandidate c1 ("+" ++ digitsOnly) else c1
    let c3 := if digitsOnly.length = 10 then addCandidate c2 ("1" ++ digitsOnly) else c2
    let c4 := if digitsOnly.length = 10 then addCandidate c3 ("+1" ++ digitsOnly) else c3
    c4

/-- A row of the user table: the id and the (nullable) phone column used as
the transfer-recipient lookup key. -/
structure User where
  id : ℕ
  phone : Option String
deriving DecidableEq

/-- A row of the wallet table. -/
structure Wallet where
  id : ℕ
  userId : ℕ
  balance : ℚ
  currency : String
deriving DecidableEq

/-- The `type` column of a transaction record. -/
inductive TxType where
  | DEPOSIT
  | WITHDRAWAL
  | TRANSFER
deriving DecidableEq

/-- The `status` column (the controller only ever writes COMPLETED). -/
inductive TxStatus where
  | COMPLETED
deriving DecidableEq

/-- A row of the transaction table (timestamps are not modelled; no claim
depends on them). -/
structure Txn where
  amount : ℚ
  currency : String
  type : TxType
  status : TxStatus
  description : String
  senderWalletId : Option ℕ := none
  senderUserId : Option ℕ := none
  receiverWalletId : Option ℕ := none
  receiverUserId : Option ℕ := none
deriving DecidableEq

/-- The store: user, wallet and transaction tables, plus a freshness counter
standing in for the id generator of wallet rows. -/
structure St where
  users : List User
  wallets : List Wallet
  txns : List Txn
  nextWalletId : ℕ
deriving DecidableEq

/-- `prisma.user.findUnique({ where: { id } })`. -/
def findUser (s : St) (uid : ℕ) : Option User :=
  s.users.find? (fun u => u.id == uid)

/-- `prisma.wallet.findUnique({ where: { userId } })`. -/
def findWalletByUser (s : St) (uid : ℕ) : Option Wallet :=
  s.wallets.find? (fun w => w.userId == uid)

/-- The recipient-lookup disjunction of `transfer`:
`phone ∈ candidates`, or (when a 10-digit suffix exists) the stored phone
ends with or contains that suffix. -/
def phoneMatches (candidates : List String) (last10 : Option String) (p : String) : Bool :=
  candidates.contains p ||
    (match last10 with
     | some l => strEndsWith p l || strContains p l
     | none => false)

/-- The lookup applied to a user row: a NULL phone matches nothing. -/
def userPhoneMatches (candidates : List String) (last10 : Option String) (u : User) : Bool :=
  match u.phone with
  | some p => phoneMatches candidates last10 p
  | none => false

/-- `prisma.user.findFirst` with the candidate/suffix OR-filter. -/
def findReceiver (s : St) (candidates : List String) (last10 : Option String) : Option User :=
  s.users.find? (userPhoneMatches candidates last10)

/-- The client-error taxonomy of the controller. -/
inductive ErrKind where
  | invalidAmount
  | insufficientFunds
  | missingRecipient
  | recipientNotFound
  | selfTransfer
deriving DecidableEq

/-- The HTTP status each error is reported with. -/
def ErrKind.httpStatus : ErrKind → ℕ
  | .recipientNotFound => 404
  | _ => 400

/-- Outcome of a handler: a success payload or a client error. -/
inductive OpResult (α : Type) where
  | ok (val : α) : OpResult α
  | err (e : ErrKind) : OpResult α
deriving DecidableEq

/-- Prisma `update` with `balance: { increment: delta }` on wallet id `wid`
(decrement is a negative delta). -/
def updateBalance (ws : List Wallet) (wid : ℕ) (delta : ℚ) : List Wallet :=
  ws.map (fun w => if w.id = wid then { w with balance := w.balance + delta } else w)

/-- The wallet-creating branch of the `getWallet` handler: return the user's
wallet, creating it with balance 1000 and currency USD when absent. -/
def getOrCreateWallet (s : St) (uid : ℕ) : St × Wallet :=
  match findWalletByUser s uid with
  | some w => (s, w)
  | none =>
    let w : Wallet := { id := s.nextWalletId, userId := uid, balance := 1000, currency := "USD" }
    ({ s with wallets := s.wallets ++ [w], nextWalletId := s.nextWalletId + 1 }, w)

/-- The `deposit` handler (after `toNumber` coercion): reject non-positive
amounts, upsert the wallet (increment when present, create seeded with the
deposit when absent), then append a DEPOSIT record with only the receiver
side populated. -/
def deposit (s : St) (uid : ℕ) (amount : ℚ) (currency description : String) :
    St × OpResult Wallet :=
  if amount ≤ 0 then (s, .err .invalidAmount)
  else
    match findWalletByUser s uid with
    | some w0 =>
      let w : Wallet := { w0 with balance := w0.balance + amount }
      let record : Txn :=
        { amount := amount, currency := currency, type := .DEPOSIT, status := .COMPLETED,
          description := description, receiverWalletId := some w0.id, receiverUserId := some uid }
      ({ s with wallets := updateBalance s.wallets w0.id amount, txns := s.txns ++ [record] },
       .ok w)
    | none =>
      let w : Wallet := { id := s.nextWalletId, userId := uid, balance := amount, currency := currency }
      let record : Txn :=
        { amount := amount, currency := currency, type := .DEPOSIT, status := .COMPLETED,
          description := description, receiverWalletId := some w.id, receiverUserId := some uid }
      ({ s with wallets := s.wallets ++ [w], txns := s.txns ++ [record],
                nextWalletId := s.nextWalletId + 1 },
       .ok w)

/-- The `withdraw` handler: reject non-positive amounts, reject a missing
wallet or a balance below the amount, otherwise decrement and append a
WITHDRAWAL record with only the sender side populated. -/
def withdraw (s : St) (uid : ℕ) (amount : ℚ) (currency description : String) :
    St × OpResult Wallet :=
  if amount ≤ 0 then (s, .err .invalidAmount)
  else
    match findWalletByUser s uid with
    | none => (s, .err .insufficientFunds)
    | some w0 =>
      if w0.balance < amount then (s, .err .insufficientFunds)
      else
        let w : Wallet := { w0 with balance := w0.balance - amount }
        let record : Txn :=
          { amount := amount, currency := currency, type := .WITHDRAWAL, status := .COMPLETED,
            description := description, senderWalletId := some w0.id, senderUserId := some uid }
        ({ s with wallets := updateBalance s.wallets w0.id (-amount), txns := s.txns ++ [record] },
         .ok w)

/-- The self-transfer guard `sender?.phone && receiverUser.phone &&
sender.phone === receiverUser.phone` (JavaScript truthiness: a NULL or
empty-string phone never triggers it). -/
def selfTransferCheck (sender : Option User) (receiver : User) : Bool :=
  match sender with
  | none => false
  | some su =>
    match su.phone, receiver.phone with
    | some p, some q => p ≠ "" && q ≠ "" && p == q
    | _, _ => false

/-- Success payload of `transfer`: the two updated wallet rows as returned by
the store, and the inserted record. -/
structure TransferData where
  updatedSender : Wallet
  updatedReceiver : Wallet
  txRecord : Txn
deriving DecidableEq

/-- `digitsOnly.slice(-10)` when at least 10 digits are present. -/
def last10Of (digitsOnly : String) : Option String :=
  if 10 ≤ digitsOnly.length then
    some (String.mk (digitsOnly.data.drop (digitsOnly.length - 10)))
  else none

/-- The `transfer` handler (after `toNumber` coercion): validate amount and
recipient field, resolve the receiver by phone candidates / 10-digit suffix,
apply the self-transfer guard, check funds, lazily create the receiver
wallet (balance 0, request currency), then decrement the sender row,
increment the receiver row and append a TRANSFER record with both sides
populated. -/
def transfer (s : St) (uid : ℕ) (amount : ℚ) (receiverPhone currency description : String) :
    St × OpResult TransferData :=
  if amount ≤ 0 then (s, .err .invalidAmount)
  else if receiverPhone = "" then (s, .err .missingRecipient)
  else
    let candidates := normalizePhoneCandidates receiverPhone
    let last10 := last10Of (digitsOnlyOf receiverPhone)
    let sender := findUser s uid
    let senderWallet := findWalletByUser s uid
    match findReceiver s candidates last10 with
    | none => (s, .err .recipientNotFound)
    | some receiverUser =>
      if selfTransferCheck sender receiverUser then (s, .err .selfTransfer)
      else
        match senderWallet with
        | none => (s, .err .insufficientFunds)
        | some sw =>
          if sw.balance < amount then (s, .err .insufficientFunds)
          else
            let created :=
              match findWalletByUser s receiverUser.id with
              | some rw => (s, rw)
              | none =>
                let rw : Wallet :=
                  { id := s.nextWalletId, userId := receiverUser.id, balance := 0,
                    currency := currency }
                ({ s with wallets := s.wallets ++ [rw], nextWalletId := s.nextWalletId + 1 }, rw)
            let s1 := created.1
            let rw := created.2
            let s2 := { s1 with wallets := updateBalance s1.wallets sw.id (-amount) }
            let s3 := { s2 with wallets := updateBalance s2.wallets rw.id amount }
            let updatedSender : Wallet := { sw with balance := sw.balance - amount }
            let updatedReceiver : Wallet :=
              (s3.wallets.find? (fun w => w.id == rw.id)).getD rw
            let record : Txn :=
              { amount := amount, currency := currency, type := .TRANSFER, status := .COMPLETED,
                description := description,
                senderWalletId := some sw.id, senderUserId := some uid,
                receiverWalletId := some rw.id, receiverUserId := some receiverUser.id }
            ({ s3 with txns := s3.txns ++ [record] },
             .ok { updatedSender := updatedSender, updatedReceiver := updatedReceiver,
                   txRecord := record })

/-- JavaScript `x || dflt` on an optional string field: `undefined` and the
empty string both fall back to the default. -/
def jsOr (v : Option String) (dflt : String) : String :=
  match v with
  | some x => if x = "" then dflt else x
  | none => dflt

/-- The deposit handler at the HTTP boundary: `toNumber` coercion of the raw
amount and `||`-defaulting of currency and description. -/
def depositRequest (s : St) (uid : ℕ) (amountRaw : JsVal)
    (currency description : Option String) : St × OpResult Wallet :=
  deposit s uid (toNumber amountRaw) (jsOr currency "USD") (jsOr description "Deposit")

/-- The withdraw handler at the HTTP boundary. -/
def withdrawRequest (s : St) (uid : ℕ) (amountRaw : JsVal)
    (currency description : Option String) : St × OpResult Wallet :=
  withdraw s uid (toNumber amountRaw) (jsOr currency "USD") (jsOr description "Withdrawal")

/-- The transfer handler at the HTTP boundary (`receiverPhone || ''`). -/
def transferRequest (s : St) (uid : ℕ) (amountRaw : JsVal) (receiverPhone : Option String)
    (currency description : Option String) : St × OpResult TransferData :=
  transfer s uid (toNumber amountRaw) (jsOr receiverPhone "")
    (jsOr currency "USD") (jsOr description "Transfer")

/-- A wallet-ledger operation together with its request parameters, for
claims that quantify over every operation. -/
inductive Op where
  | getWallet (uid : ℕ)
  | deposit (uid : ℕ) (amount : ℚ) (currency description : String)
  | withdraw (uid : ℕ) (amount : ℚ) (currency description : String)
  | transfer (uid : ℕ) (amount : ℚ) (receiverPhone currency description : String)
deriving DecidableEq

/-- The post-state of an operation. -/
def applyOp (s : St) : Op → St
  | .getWallet uid => (getOrCreateWallet s uid).1
  | .deposit uid a c d => (deposit s uid a c d).1
  | .withdraw uid a c d => (withdraw s uid a c d).1
  | .transfer uid a p c d => (transfer s uid a p c d).1

/-- Every wallet balance in the store is non-negative. -/
def NonNegBalances (s : St) : Prop :=
  ∀ w ∈ s.wallets, 0 ≤ w.balance

/-- The sum of all wallet balances. -/
def sumBalances (s : St) : ℚ :=
  (s.wallets.map Wallet.balance).sum

/-- Store well-formedness, as guaranteed by the database schema: user ids are
unique, wallet ids are unique, each user has at most one wallet, and the id
generator is fresh. -/
def WF (s : St) : Prop :=
  (s.users.map User.id).Nodup ∧
  (s.wallets.map Wallet.id).Nodup ∧
  (s.wallets.map Wallet.userId).Nodup ∧
  ∀ w ∈ s.wallets, w.id < s.nextWalletId

/-- The balance the store currently holds for a user (0 when no wallet). -/
def userBalance (s : St) (uid : ℕ) : ℚ :=
  ((findWalletByUser s uid).map Wallet.balance).getD 0

/-- The currency an operation would stamp on anything it creates: the
request currency of deposit/withdraw/transfer, the hard-coded USD of the
`getWallet` handler. -/
def opCurrency : Op → String
  | .getWallet _ => "USD"
  | .deposit _ _ c _ => c
  | .withdraw _ _ c _ => c
  | .transfer _ _ _ c _ => c

/-- Repaint the stored currency of every wallet row (used to state that no
handler ever reads a stored wallet currency). -/
def recolor (f : ℕ → String) (s : St) : St :=
  { s with wallets := s.wallets.map (fun w => { w with currency := f w.id }) }

/-- The client error an operation reports, if any. -/
def opError (s : St) : Op → Option ErrKind
  | .getWallet _ => none
  | .deposit uid a c d =>
    match (deposit s uid a c d).2 with
    | .err e => some e
    | .ok _ => none
  | .withdraw uid a c d =>
    match (withdraw s uid a c d).2 with
    | .err e => some e
    | .ok _ => none
  | .transfer uid a p c d =>
    match (transfer s uid a p c d).2 with
    | .err e => some e
    | .ok _ => none

instance (s : St) : Decidable (NonNegBalances s) := by
  unfold NonNegBalances
  infer_instance

instance (s : St) : Decidable (WF s) := by
  unfold WF
  infer_instance

/-!  ## Helper lemmas  -/

theorem deposit_nonpos {a : ℚ} (s : St) (uid : ℕ) (cur desc : String) (h : a ≤ 0) :
    deposit s uid a cur desc = (s, .err .invalidAmount) := by
  simp [deposit, h]

theorem withdraw_nonpos {a : ℚ} (s : St) (uid : ℕ) (cur desc : String) (h : a ≤ 0) :
    withdraw s uid a cur desc = (s, .err .invalidAmount) := by
  simp [withdraw, h]

theorem transfer_nonpos {a : ℚ} (s : St) (uid : ℕ) (phone cur desc : String) (h : a ≤ 0) :
    transfer s uid a phone cur desc = (s, .err .invalidAmount) := by
  simp [transfer, h]

theorem mem_addCandidate (l : List String) (y x : String) :
    x ∈ addCandidate l y ↔ (x ∈ l ∨ x = y) := by
  unfold addCandidate
  split_ifs with hy
  · constructor
    · exact fun hx => Or.inl hx
    · rintro (hx | rfl)
      · exact hx
      · exact hy
  · simp

theorem ws_not_digit {c : Char} (h : isJsWs c = true) : c.isDigit = false := by
  simp only [isJsWs, Bool.or_eq_true, beq_iff_eq] at h
  rcases h with ((rfl | rfl) | rfl) | rfl <;> rfl

theorem filter_isDigit_dropWhile_ws (l : List Char) :
    (l.dropWhile isJsWs).filter Char.isDigit = l.filter Char.isDigit := by
  induction l with
  | nil => rfl
  | cons c t ih =>
    by_cases hc : isJsWs c = true
    · rw [List.dropWhile_cons, if_pos hc, ih, List.filter_cons, if_neg (by simp [ws_not_digit hc])]
    · rw [List.dropWhile_cons, if_neg hc]

theorem digitsOnly_jsTrim (s : String) : digitsOnlyOf (jsTrim s) = digitsOnlyOf s := by
  show String.mk ((((s.data.dropWhile isJsWs).reverse.dropWhile isJsWs).reverse).filter
    Char.isDigit) = String.mk (s.data.filter Char.isDigit)
  rw [List.filter_reverse, filter_isDigit_dropWhile_ws, List.filter_reverse,
    List.reverse_reverse, filter_isDigit_dropWhile_ws]

theorem transfer_no_receiver {a : ℚ} (s : St) (uid : ℕ) (phone cur desc : String)
    (hA : ¬ a ≤ 0) (hP : ¬ phone = "")
    (hR : findReceiver s (normalizePhoneCandidates phone) (last10Of (digitsOnlyOf phone)) = none) :
    transfer s uid a phone cur desc = (s, .err .recipientNotFound) := by
  simp [transfer, hA, hP, hR]

theorem transfer_self {a : ℚ} (s : St) (uid : ℕ) (phone cur desc : String) (rcv : User)
    (hA : ¬ a ≤ 0) (hP : ¬ phone = "")
    (hR : findReceiver s (normalizePhoneCandidates phone) (last10Of (digitsOnlyOf phone)) =
      some rcv)
    (hS : selfTransferCheck (findUser s uid) rcv = true) :
    transfer s uid a phone cur desc = (s, .err .selfTransfer) := by
  simp [transfer, hA, hP, hR, hS]

theorem transfer_insufficient {a : ℚ} (s : St) (uid : ℕ) (phone cur desc : String) (rcv : User)
    (hA : ¬ a ≤ 0) (hP : ¬ phone = "")
    (hR : findReceiver s (normalizePhoneCandidates phone) (last10Of (digitsOnlyOf phone)) =
      some rcv)
    (hS : selfTransferCheck (findUser s uid) rcv = false)
    (hw : findWalletByUser s uid = none ∨
      ∃ w, findWalletByUser s uid = some w ∧ w.balance < a) :
    transfer s uid a phone cur desc = (s, .err .insufficientFunds) := by
  rcases hw with hw | ⟨w, hw, hb⟩
  · simp [transfer, hA, hP, hR, hS, hw]
  · simp [transfer, hA, hP, hR, hS, hw, hb]

theorem withdraw_insufficient {a : ℚ} (s : St) (uid : ℕ) (cur desc : String)
    (hA : ¬ a ≤ 0)
    (hw : findWalletByUser s uid = none ∨
      ∃ w, findWalletByUser s uid = some w ∧ w.balance < a) :
    withdraw s uid a cur desc = (s, .err .insufficientFunds) := by
  rcases hw with hw | ⟨w, hw, hb⟩
  · simp [withdraw, hA, hw]
  · simp [withdraw, hA, hw, hb]

theorem withdraw_ok_funds {s : St} {uid : ℕ} {a : ℚ} {cur desc : String} {st2 : St} {w : Wallet}
    (h : withdraw s uid a cur desc = (st2, OpResult.ok w)) :
    ∃ w0, findWalletByUser s uid = some w0 ∧ a ≤ w0.balance := by
  unfold withdraw at h
  split at h
  · simp at h
  · split at h
    · simp at h
    · rename_i w0 heq
      split at h
      · simp at h
      · rename_i hb
        exact ⟨w0, heq, not_lt.mp hb⟩

theorem transfer_ok_funds {s : St} {uid : ℕ} {a : ℚ} {phone cur desc : String} {st2 : St}
    {d : TransferData} (h : transfer s uid a phone cur desc = (st2, OpResult.ok d)) :
    ∃ w0, findWalletByUser s uid = some w0 ∧ a ≤ w0.balance := by
  unfold transfer at h
  split at h
  · simp at h
  · split at h
    · simp at h
    · dsimp only [] at h
      split at h
      · simp at h
      · split at h
        · simp at h
        · split at h
          · simp at h
          · rename_i w0 heq
            split at h
            · simp at h
            · rename_i hb
              exact ⟨w0, heq, not_lt.mp hb⟩

theorem findWalletByUser_mem {s : St} {uid : ℕ} {w : Wallet}
    (h : findWalletByUser s uid = some w) : w ∈ s.wallets ∧ w.userId = uid := by
  refine ⟨List.mem_of_find?_eq_some h, ?_⟩
  have := List.find?_some h
  simpa using this

theorem find?_field_unique (f : Wallet → ℕ) {ws : List Wallet}
    (hnd : (ws.map f).Nodup) {w : Wallet} (hw : w ∈ ws) :
    ws.find? (fun x => f x == f w) = some w := by
  induction ws with
  | nil => cases hw
  | cons w0 t ih =>
    rcases List.nodup_cons.mp hnd with ⟨hnotin, hndt⟩
    by_cases h : f w0 = f w
    · rw [List.find?_cons_of_pos _ (by simpa using h)]
      rcases List.mem_cons.mp hw with rfl | hwt
      · rfl
      · exact absurd (h ▸ List.mem_map_of_mem f hwt) hnotin
    · rw [List.find?_cons_of_neg _ (by simpa using h)]
      rcases List.mem_cons.mp hw with rfl | hwt
      · exact absurd rfl h
      · exact ih hndt hwt

theorem updateBalance_find? (g : Wallet → ℕ)
    (hg : ∀ (w : Wallet) (q : ℚ), g { w with balance := q } = g w)
    (ws : List Wallet) (wid : ℕ) (d : ℚ) (k : ℕ) :
    (updateBalance ws wid d).find? (fun w => g w == k) =
      (ws.find? (fun w => g w == k)).map
        (fun w => if w.id = wid then { w with balance := w.balance + d } else w) := by
  unfold updateBalance
  have hp : ((fun w => g w == k) ∘ fun w : Wallet =>
      if w.id = wid then { w with balance := w.balance + d } else w) =
      (fun w : Wallet => g w == k) := by
    funext w
    simp only [Function.comp]
    split
    · rw [hg]
    · rfl
  rw [List.find?_map, hp]

theorem updateBalance_countP (ws : List Wallet) (wid : ℕ) (d : ℚ) (k : ℕ) :
    (updateBalance ws wid d).countP (fun w => w.id == k) =
      ws.countP (fun w => w.id == k) := by
  unfold updateBalance
  rw [List.countP_map]
  congr 1
  funext w
  simp only [Function.comp]
  split <;> rfl

theorem sum_updateBalance (ws : List Wallet) (wid : ℕ) (d : ℚ) :
    ((updateBalance ws wid d).map Wallet.balance).sum =
      (ws.map Wallet.balance).sum + d * (ws.countP (fun w => w.id == wid)) := by
  induction ws with
  | nil => simp [updateBalance]
  | cons w t ih =>
    unfold updateBalance at ih ⊢
    by_cases h : w.id = wid
    · simp only [List.map_cons, if_pos h, List.sum_cons, ih, List.countP_cons,
        (by simpa using h : (w.id == wid) = true)]
      push_cast
      ring
    · simp only [List.map_cons, if_neg h, List.sum_cons, ih, List.countP_cons,
        (by simpa using h : (w.id == wid) = false)]
      push_cast
      ring

theorem countP_id_eq_one {ws : List Wallet} (hnd : (ws.map Wallet.id).Nodup)
    {w : Wallet} (hw : w ∈ ws) :
    ws.countP (fun x => x.id == w.id) = 1 := by
  have h1 : ws.countP (fun x => x.id == w.id) = (ws.map Wallet.id).countP (· == w.id) := by
    rw [List.countP_map]
    rfl
  rw [h1]
  exact List.count_eq_one_of_mem hnd (List.mem_map_of_mem Wallet.id hw)

theorem nonneg_updateBalance {ws : List Wallet} {wid : ℕ} {d : ℚ}
    (h : ∀ w ∈ ws, 0 ≤ w.balance)
    (h2 : ∀ w ∈ ws, w.id = wid → 0 ≤ w.balance + d) :
    ∀ w ∈ updateBalance ws wid d, 0 ≤ w.balance := by
  intro w hw
  unfold updateBalance at hw
  rcases List.mem_map.mp hw with ⟨w0, hw0, rfl⟩
  split
  · exact h2 w0 hw0 (by assumption)
  · exact h w0 hw0

theorem transfer_ok_present {s : St} {uid : ℕ} {a : ℚ} {phone cur desc : String}
    {rcv : User} {sw rw : Wallet}
    (hA : ¬ a ≤ 0) (hP : ¬ phone = "")
    (hR : findReceiver s (normalizePhoneCandidates phone) (last10Of (digitsOnlyOf phone)) =
      some rcv)
    (hS : selfTransferCheck (findUser s uid) rcv = false)
    (hSW : findWalletByUser s uid = some sw)
    (hBal : ¬ sw.balance < a)
    (hRW : findWalletByUser s rcv.id = some rw) :
    transfer s uid a phone cur desc =
      ({ users := s.users,
         wallets := updateBalance (updateBalance s.wallets sw.id (-a)) rw.id a,
         txns := s.txns ++
           [{ amount := a, currency := cur, type := TxType.TRANSFER,
              status := TxStatus.COMPLETED, description := desc,
              senderWalletId := some sw.id, senderUserId := some uid,
              receiverWalletId := some rw.id, receiverUserId := some rcv.id }],
         nextWalletId := s.nextWalletId },
       OpResult.ok
         { updatedSender := { sw with balance := sw.balance - a },
           updatedReceiver :=
             ((updateBalance (updateBalance s.wallets sw.id (-a)) rw.id a).find?
               (fun w => w.id == rw.id)).getD rw,
           txRecord :=
             { amount := a, currency := cur, type := TxType.TRANSFER,
               status := TxStatus.COMPLETED, description := desc,
               senderWalletId := some sw.id, senderUserId := some uid,
               receiverWalletId := some rw.id, receiverUserId := some rcv.id } }) := by
  simp [transfer, hA, hP, hR, hS, hSW, hBal, hRW]

theorem transfer_ok_absent {s : St} {uid : ℕ} {a : ℚ} {phone cur desc : String}
    {rcv : User} {sw : Wallet}
    (hA : ¬ a ≤ 0) (hP : ¬ phone = "")
    (hR : findReceiver s (normalizePhoneCandidates phone) (last10Of (digitsOnlyOf phone)) =
      some rcv)
    (hS : selfTransferCheck (findUser s uid) rcv = false)
    (hSW : findWalletByUser s uid = some sw)
    (hBal : ¬ sw.balance < a)
    (hRW : findWalletByUser s rcv.id = none) :
    transfer s uid a phone cur desc =
      ({ users := s.users,
         wallets := updateBalance (updateBalance
           (s.wallets ++
             [{ id := s.nextWalletId, userId := rcv.id, balance := 0, currency := cur }])
           sw.id (-a)) s.nextWalletId a,
         txns := s.txns ++
           [{ amount := a, currency := cur, type := TxType.TRANSFER,
              status := TxStatus.COMPLETED, description := desc,
              senderWalletId := some sw.id, senderUserId := some uid,
              receiverWalletId := some s.nextWalletId, receiverUserId := some rcv.id }],
         nextWalletId := s.nextWalletId + 1 },
       OpResult.ok
         { updatedSender := { sw with balance := sw.balance - a },
           updatedReceiver :=
             ((updateBalance (updateBalance
               (s.wallets ++
                 [{ id := s.nextWalletId, userId := rcv.id, balance := 0, currency := cur }])
               sw.id (-a)) s.nextWalletId a).find?
                 (fun w => w.id == s.nextWalletId)).getD
               { id := s.nextWalletId, userId := rcv.id, balance := 0, currency := cur },
           txRecord :=
             { amount := a, currency := cur, type := TxType.TRANSFER,
               status := TxStatus.COMPLETED, description := desc,
               senderWalletId := some sw.id, senderUserId := some uid,
               receiverWalletId := some s.nextWalletId, receiverUserId := some rcv.id } }) := by
  simp [transfer, hA, hP, hR, hS, hSW, hBal, hRW]

/-!  ## Claim theorems  -/

/-- C3: for every amount `a ≤ 0`, each of deposit, withdraw and transfer
rejects the request with the InvalidAmount error, reported with HTTP
status 400, and makes no state change (no balance modified, no wallet
created, no transaction record appended). -/
theorem nonpositive_amount_rejected (s : St) (uid : ℕ) (a : ℚ)
    (cur desc phone : String) (h : a ≤ 0) :
    deposit s uid a cur desc = (s, OpResult.err ErrKind.invalidAmount) ∧
    withdraw s uid a cur desc = (s, OpResult.err ErrKind.invalidAmount) ∧
    transfer s uid a phone cur desc = (s, OpResult.err ErrKind.invalidAmount) ∧
    ErrKind.invalidAmount.httpStatus = 400 :=
  ⟨deposit_nonpos s uid cur desc h, withdraw_nonpos s uid cur desc h,
   transfer_nonpos s uid phone cur desc h, rfl⟩

theorem nonpositive_amount_rejected_witness :
    (0 : ℚ) ≤ 0 ∧
    (deposit { users := [], wallets := [], txns := [], nextWalletId := 0 } 1 0 "USD" "d" =
       ({ users := [], wallets := [], txns := [], nextWalletId := 0 },
        OpResult.err ErrKind.invalidAmount) ∧
     withdraw { users := [], wallets := [], txns := [], nextWalletId := 0 } 1 0 "USD" "d" =
       ({ users := [], wallets := [], txns := [], nextWalletId := 0 },
        OpResult.err ErrKind.invalidAmount) ∧
     transfer { users := [], wallets := [], txns := [], nextWalletId := 0 } 1 0 "555" "USD" "d" =
       ({ users := [], wallets := [], txns := [], nextWalletId := 0 },
        OpResult.err ErrKind.invalidAmount) ∧
     ErrKind.invalidAmount.httpStatus = 400) :=
  ⟨le_refl 0,
   nonpositive_amount_rejected { users := [], wallets := [], txns := [], nextWalletId := 0 }
     1 0 "USD" "d" "555" (le_refl 0)⟩

/-- C9: a request amount that does not coerce to a finite number (a missing
field, NaN, an infinity, or a string without a numeric prefix) is turned
into `0` by `toNumber`, so deposit, withdraw and transfer all reject it with
the InvalidAmount error and make no state change; no operation ever
proceeds with a non-finite amount. -/
theorem nonfinite_amount_rejected (v : JsVal) (h : (coerced v).isFinite = false) :
    toNumber v = 0 ∧
    ∀ (s : St) (uid : ℕ) (cur desc phone : Option String),
      depositRequest s uid v cur desc = (s, OpResult.err ErrKind.invalidAmount) ∧
      withdrawRequest s uid v cur desc = (s, OpResult.err ErrKind.invalidAmount) ∧
      transferRequest s uid v phone cur desc = (s, OpResult.err ErrKind.invalidAmount) := by
  have h0 : toNumber v = 0 := by
    unfold toNumber
    cases hc : coerced v <;> simp_all [JsRaw.isFinite]
  refine ⟨h0, fun s uid cur desc phone => ?_⟩
  refine ⟨?_, ?_, ?_⟩
  · unfold depositRequest
    rw [h0]
    exact deposit_nonpos s uid _ _ le_rfl
  · unfold withdrawRequest
    rw [h0]
    exact withdraw_nonpos s uid _ _ le_rfl
  · unfold transferRequest
    rw [h0]
    exact transfer_nonpos s uid _ _ _ le_rfl

theorem nonfinite_amount_rejected_witness :
    (coerced (JsVal.str "abc")).isFinite = false ∧
    toNumber (JsVal.str "abc") = 0 ∧
    depositRequest { users := [], wallets := [], txns := [], nextWalletId := 0 }
        1 (JsVal.str "abc") none none =
      ({ users := [], wallets := [], txns := [], nextWalletId := 0 },
       OpResult.err ErrKind.invalidAmount) :=
  ⟨by decide,
   (nonfinite_amount_rejected (JsVal.str "abc") (by decide)).1,
   ((nonfinite_amount_rejected (JsVal.str "abc") (by decide)).2
     { users := [], wallets := [], txns := [], nextWalletId := 0 } 1 none none none).1⟩

/-- C7: a transfer (with a positive amount and a non-empty receiverPhone,
i.e. one that reaches recipient resolution) whose receiverPhone matches no
stored user under the candidate/suffix rules fails with the
RecipientNotFound error, reported with HTTP status 404, and leaves the
store — in particular every wallet balance — unchanged. -/
theorem unmatched_phone_recipient_not_found (s : St) (uid : ℕ) (a : ℚ)
    (phone cur desc : String) (hA : 0 < a) (hP : phone ≠ "")
    (hR : findReceiver s (normalizePhoneCandidates phone) (last10Of (digitsOnlyOf phone)) =
      none) :
    transfer s uid a phone cur desc = (s, OpResult.err ErrKind.recipientNotFound) ∧
    ErrKind.recipientNotFound.httpStatus = 404 :=
  ⟨transfer_no_receiver s uid phone cur desc (not_le.mpr hA) hP hR, rfl⟩

theorem unmatched_phone_recipient_not_found_witness :
    (0 : ℚ) < 5 ∧ ("222" : String) ≠ "" ∧
    transfer { users := [{ id := 1, phone := some "+19990001111" }],
               wallets := [{ id := 0, userId := 1, balance := 40, currency := "USD" }],
               txns := [], nextWalletId := 1 } 1 5 "222" "USD" "t" =
      ({ users := [{ id := 1, phone := some "+19990001111" }],
         wallets := [{ id := 0, userId := 1, balance := 40, currency := "USD" }],
         txns := [], nextWalletId := 1 }, OpResult.err ErrKind.recipientNotFound) ∧
    ErrKind.recipientNotFound.httpStatus = 404 :=
  ⟨by norm_num, by decide,
   unmatched_phone_recipient_not_found
     { users := [{ id := 1, phone := some "+19990001111" }],
       wallets := [{ id := 0, userId := 1, balance := 40, currency := "USD" }],
       txns := [], nextWalletId := 1 } 1 5 "222" "USD" "t"
     (by norm_num) (by decide) (by decide)⟩

/-- C4: withdraw with a positive amount rejects with InsufficientFunds and
changes nothing when the caller has no wallet or too small a balance;
transfer does the same once its earlier checks pass (recipient resolved,
self-transfer guard not fired); and both succeed only when the sender
wallet exists with balance at least the amount. -/
theorem insufficient_funds_behaviour (s : St) (uid : ℕ) (a : ℚ)
    (cur desc phone : String) (hA : 0 < a) :
    ((findWalletByUser s uid = none ∨
        ∃ w, findWalletByUser s uid = some w ∧ w.balance < a) →
      withdraw s uid a cur desc = (s, OpResult.err ErrKind.insufficientFunds)) ∧
    (∀ rcv, phone ≠ "" →
      findReceiver s (normalizePhoneCandidates phone) (last10Of (digitsOnlyOf phone)) =
        some rcv →
      selfTransferCheck (findUser s uid) rcv = false →
      (findWalletByUser s uid = none ∨
        ∃ w, findWalletByUser s uid = some w ∧ w.balance < a) →
      transfer s uid a phone cur desc = (s, OpResult.err ErrKind.insufficientFunds)) ∧
    (∀ st2 w, withdraw s uid a cur desc = (st2, OpResult.ok w) →
      ∃ w0, findWalletByUser s uid = some w0 ∧ a ≤ w0.balance) ∧
    (∀ st2 d, transfer s uid a phone cur desc = (st2, OpResult.ok d) →
      ∃ w0, findWalletByUser s uid = some w0 ∧ a ≤ w0.balance) := by
  refine ⟨fun hw => withdraw_insufficient s uid cur desc (not_le.mpr hA) hw,
          fun rcv hP hR hS hw =>
            transfer_insufficient s uid phone cur desc rcv (not_le.mpr hA) hP hR hS hw,
          fun st2 w h => withdraw_ok_funds h,
          fun st2 d h => transfer_ok_funds h⟩

theorem insufficient_funds_behaviour_witness :
    (0 : ℚ) < 7 ∧
    withdraw { users := [{ id := 1, phone := some "+19990001111" }],
               wallets := [{ id := 0, userId := 1, balance := 3, currency := "USD" }],
               txns := [], nextWalletId := 1 } 1 7 "USD" "w" =
      ({ users := [{ id := 1, phone := some "+19990001111" }],
         wallets := [{ id := 0, userId := 1, balance := 3, currency := "USD" }],
         txns := [], nextWalletId := 1 }, OpResult.err ErrKind.insufficientFunds) :=
  ⟨by norm_num,
   (insufficient_funds_behaviour
     { users := [{ id := 1, phone := some "+19990001111" }],
       wallets := [{ id := 0, userId := 1, balance := 3, currency := "USD" }],
       txns := [], nextWalletId := 1 } 1 7 "USD" "w" "222" (by norm_num)).1
     (Or.inr ⟨{ id := 0, userId := 1, balance := 3, currency := "USD" }, by decide, by norm_num⟩)⟩

/-- C6 counterexample: when the shared stored phone number is the empty
string, the JavaScript truthiness guard `sender?.phone &&
receiverUser.phone && …` never fires.  With user 7 storing phone `""` and
the input `" "` (whose only candidate is the trimmed empty string), the
sender resolves as their own receiver, yet the transfer does not fail with
SelfTransfer and does change the state (a TRANSFER record is appended). -/
theorem self_transfer_empty_phone_cex :
    (findUser { users := [{ id := 7, phone := some "" }],
                wallets := [{ id := 3, userId := 7, balance := 100, currency := "USD" }],
                txns := [], nextWalletId := 4 } 7).map User.phone = some (some "") ∧
    findReceiver { users := [{ id := 7, phone := some "" }],
                   wallets := [{ id := 3, userId := 7, balance := 100, currency := "USD" }],
                   txns := [], nextWalletId := 4 }
        (normalizePhoneCandidates " ") (last10Of (digitsOnlyOf " ")) =
      some { id := 7, phone := some "" } ∧
    (transfer { users := [{ id := 7, phone := some "" }],
                wallets := [{ id := 3, userId := 7, balance := 100, currency := "USD" }],
                txns := [], nextWalletId := 4 } 7 10 " " "USD" "t").2 ≠
      OpResult.err ErrKind.selfTransfer ∧
    (transfer { users := [{ id := 7, phone := some "" }],
                wallets := [{ id := 3, userId := 7, balance := 100, currency := "USD" }],
                txns := [], nextWalletId := 4 } 7 10 " " "USD" "t").1.txns ≠ [] := by
  refine ⟨by decide, by decide, by decide, by decide⟩

/-- C6 (amended): a transfer in which the sender and the resolved receiver
share the same non-empty stored phone number fails with the SelfTransfer
error, reported with HTTP status 400, and makes no state change. -/
theorem self_transfer_rejected (s : St) (uid : ℕ) (a : ℚ)
    (phone cur desc : String) (rcv su : User) (p : String)
    (hA : 0 < a) (hP : phone ≠ "")
    (hR : findReceiver s (normalizePhoneCandidates phone) (last10Of (digitsOnlyOf phone)) =
      some rcv)
    (hSu : findUser s uid = some su) (hsp : su.phone = some p) (hrp : rcv.phone = some p)
    (hpne : p ≠ "") :
    transfer s uid a phone cur desc = (s, OpResult.err ErrKind.selfTransfer) ∧
    ErrKind.selfTransfer.httpStatus = 400 := by
  have hS : selfTransferCheck (findUser s uid) rcv = true := by
    simp [selfTransferCheck, hSu, hsp, hrp, hpne]
  exact ⟨transfer_self s uid phone cur desc rcv (not_le.mpr hA) hP hR hS, rfl⟩

theorem self_transfer_rejected_witness :
    (0 : ℚ) < 2 ∧
    transfer { users := [{ id := 1, phone := some "555" }],
               wallets := [{ id := 0, userId := 1, balance := 50, currency := "USD" }],
               txns := [], nextWalletId := 1 } 1 2 "555" "USD" "t" =
      ({ users := [{ id := 1, phone := some "555" }],
         wallets := [{ id := 0, userId := 1, balance := 50, currency := "USD" }],
         txns := [], nextWalletId := 1 }, OpResult.err ErrKind.selfTransfer) ∧
    ErrKind.selfTransfer.httpStatus = 400 :=
  ⟨by norm_num,
   (self_transfer_rejected
     { users := [{ id := 1, phone := some "555" }],
       wallets := [{ id := 0, userId := 1, balance := 50, currency := "USD" }],
       txns := [], nextWalletId := 1 } 1 2 "555" "USD" "t"
     { id := 1, phone := some "555" } { id := 1, phone := some "555" } "555"
     (by norm_num) (by decide) (by decide) (by decide) rfl rfl (by decide)).1,
   (self_transfer_rejected
     { users := [{ id := 1, phone := some "555" }],
       wallets := [{ id := 0, userId := 1, balance := 50, currency := "USD" }],
       txns := [], nextWalletId := 1 } 1 2 "555" "USD" "t"
     { id := 1, phone := some "555" } { id := 1, phone := some "555" } "555"
     (by norm_num) (by decide) (by decide) (by decide) rfl rfl (by decide)).2⟩

/-- C5: for every non-empty receiverPhone input, the candidate set consists
exactly of the trimmed input, the digits-only form and its `+`-prefixed
variant (when the digits-only form is non-empty), and the `1`/`+1`-prefixed
variants (when the digits-only form has exactly 10 digits); and when the
input contains at least 10 digits, a stored phone also matches the lookup
whenever it ends with or contains the last 10 digits of the input. -/
theorem candidate_set_exact (input : String) (h : input ≠ "") :
    (∀ c, c ∈ normalizePhoneCandidates input ↔
      (c = jsTrim input ∨
       (digitsOnlyOf input ≠ "" ∧
         (c = digitsOnlyOf input ∨ c = "+" ++ digitsOnlyOf input)) ∨
       ((digitsOnlyOf input).length = 10 ∧
         (c = "1" ++ digitsOnlyOf input ∨ c = "+1" ++ digitsOnlyOf input)))) ∧
    (∀ p l, 10 ≤ (digitsOnlyOf input).length →
      l = String.mk ((digitsOnlyOf input).data.drop ((digitsOnlyOf input).length - 10)) →
      (strEndsWith p l = true ∨ strContains p l = true) →
      phoneMatches (normalizePhoneCandidates input) (last10Of (digitsOnlyOf input)) p =
        true) := by
  constructor
  · intro c
    rw [← digitsOnly_jsTrim input]
    unfold normalizePhoneCandidates
    rw [if_neg h]
    by_cases hd : digitsOnlyOf (jsTrim input) = "" <;>
      by_cases hl : (digitsOnlyOf (jsTrim input)).length = 10 <;>
        simp [mem_addCandidate, hd, hl] <;> tauto
  · intro p l hlen hli hm
    have : last10Of (digitsOnlyOf input) = some l := by
      rw [last10Of, if_pos hlen, hli]
    unfold phoneMatches
    rw [this]
    rcases hm with hm | hm <;> simp [hm]

theorem candidate_set_exact_witness :
    (" 415-555-0100 " : String) ≠ "" ∧
    ("4155550100" ∈ normalizePhoneCandidates " 415-555-0100 " ↔
      ("4155550100" = jsTrim " 415-555-0100 " ∨
       (digitsOnlyOf " 415-555-0100 " ≠ "" ∧
         ("4155550100" = digitsOnlyOf " 415-555-0100 " ∨
          "4155550100" = "+" ++ digitsOnlyOf " 415-555-0100 ")) ∨
       ((digitsOnlyOf " 415-555-0100 ").length = 10 ∧
         ("4155550100" = "1" ++ digitsOnlyOf " 415-555-0100 " ∨
          "4155550100" = "+1" ++ digitsOnlyOf " 415-555-0100 ")))) ∧
    phoneMatches (normalizePhoneCandidates " 415-555-0100 ")
      (last10Of (digitsOnlyOf " 415-555-0100 ")) "+14155550100" = true :=
  ⟨by decide,
   (candidate_set_exact " 415-555-0100 " (by decide)).1 "4155550100",
   (candidate_set_exact " 415-555-0100 " (by decide)).2 "+14155550100" "4155550100"
     (by decide) (by decide) (Or.inl (by decide))⟩

/-- C8: `getOrCreateWallet` returns the existing wallet with the store
untouched; when absent it creates one with starting balance 1000 and the
default currency USD; and a successful transfer to a receiver without a
wallet lazily creates that wallet with balance 0 in the request currency
(so after the transfer's increment it holds exactly the transferred
amount). -/
theorem wallet_creation_rules :
    (∀ (s : St) (uid : ℕ) (w : Wallet), findWalletByUser s uid = some w →
      getOrCreateWallet s uid = (s, w)) ∧
    (∀ (s : St) (uid : ℕ), findWalletByUser s uid = none →
      getOrCreateWallet s uid =
        ({ users := s.users,
           wallets := s.wallets ++
             [{ id := s.nextWalletId, userId := uid, balance := 1000, currency := "USD" }],
           txns := s.txns, nextWalletId := s.nextWalletId + 1 },
         { id := s.nextWalletId, userId := uid, balance := 1000, currency := "USD" })) ∧
    (∀ (s : St) (uid : ℕ) (a : ℚ) (phone cur desc : String) (rcv : User) (sw : Wallet),
      WF s → 0 < a → phone ≠ "" →
      findReceiver s (normalizePhoneCandidates phone) (last10Of (digitsOnlyOf phone)) =
        some rcv →
      selfTransferCheck (findUser s uid) rcv = false →
      findWalletByUser s uid = some sw → a ≤ sw.balance →
      findWalletByUser s rcv.id = none →
      findWalletByUser (transfer s uid a phone cur desc).1 rcv.id =
        some { id := s.nextWalletId, userId := rcv.id, balance := 0 + a, currency := cur }) := by
  refine ⟨?_, ?_, ?_⟩
  · intro s uid w h
    simp [getOrCreateWallet, h]
  · intro s uid h
    simp [getOrCreateWallet, h]
  · intro s uid a phone cur desc rcv sw hWF hA hP hR hS hSW hBal hRW
    have hlt : sw.id < s.nextWalletId := hWF.2.2.2 sw (findWalletByUser_mem hSW).1
    rw [transfer_ok_absent (not_le.mpr hA) hP hR hS hSW (not_lt.mpr hBal) hRW]
    show (updateBalance (updateBalance _ sw.id (-a)) s.nextWalletId a).find?
      (fun w => w.userId == rcv.id) = _
    rw [updateBalance_find? Wallet.userId (fun w q => rfl),
        updateBalance_find? Wallet.userId (fun w q => rfl), List.find?_append]
    rw [show s.wallets.find? (fun w => w.userId == rcv.id) = none from hRW]
    simp [ne_of_gt hlt]

theorem wallet_creation_rules_witness :
    (findWalletByUser { users := [{ id := 1, phone := some "+15550199" }],
                        wallets := [{ id := 0, userId := 1, balance := 1300, currency := "USD" }],
                        txns := [], nextWalletId := 1 } 1 =
       some { id := 0, userId := 1, balance := 1300, currency := "USD" } ∧
     getOrCreateWallet { users := [{ id := 1, phone := some "+15550199" }],
                         wallets := [{ id := 0, userId := 1, balance := 1300, currency := "USD" }],
                         txns := [], nextWalletId := 1 } 1 =
       ({ users := [{ id := 1, phone := some "+15550199" }],
          wallets := [{ id := 0, userId := 1, balance := 1300, currency := "USD" }],
          txns := [], nextWalletId := 1 },
        { id := 0, userId := 1, balance := 1300, currency := "USD" })) ∧
    getOrCreateWallet { users := [], wallets := [], txns := [], nextWalletId := 0 } 5 =
      ({ users := [],
         wallets := [{ id := 0, userId := 5, balance := 1000, currency := "USD" }],
         txns := [], nextWalletId := 1 },
       { id := 0, userId := 5, balance := 1000, currency := "USD" }) ∧
    findWalletByUser
      (transfer { users := [{ id := 1, phone := some "+15550199" },
                            { id := 2, phone := some "+15550100" }],
                  wallets := [{ id := 0, userId := 1, balance := 1300, currency := "USD" }],
                  txns := [], nextWalletId := 1 } 1 300 "+1-555-0100" "USD" "t").1 2 =
      some { id := 1, userId := 2, balance := 0 + 300, currency := "USD" } :=
  ⟨⟨by decide,
    wallet_creation_rules.1
      { users := [{ id := 1, phone := some "+15550199" }],
        wallets := [{ id := 0, userId := 1, balance := 1300, currency := "USD" }],
        txns := [], nextWalletId := 1 } 1
      { id := 0, userId := 1, balance := 1300, currency := "USD" } (by decide)⟩,
   wallet_creation_rules.2.1 { users := [], wallets := [], txns := [], nextWalletId := 0 } 5
     (by decide),
   wallet_creation_rules.2.2
     { users := [{ id := 1, phone := some "+15550199" },
                 { id := 2, phone := some "+15550100" }],
       wallets := [{ id := 0, userId := 1, balance := 1300, currency := "USD" }],
       txns := [], nextWalletId := 1 } 1 300 "+1-555-0100" "USD" "t"
     { id := 2, phone := some "+15550100" }
     { id := 0, userId := 1, balance := 1300, currency := "USD" }
     (by decide) (by norm_num) (by decide) (by decide) (by decide) (by decide) (by norm_num)
     (by decide)⟩

/-- C1: a successful transfer of amount `a` (positive amount, recipient
resolved, sender and receiver phones differ, sender balance at least `a`)
decreases the sender's balance by exactly `a`, increases the receiver's
balance by exactly `a`, appends exactly one COMPLETED TRANSFER record with
both sender and receiver sides populated, and leaves the sum of all wallet
balances unchanged. -/
theorem transfer_moves_amount_conserves_sum (s : St) (uid : ℕ) (a : ℚ)
    (phone cur desc : String) (rcv : User) (sw : Wallet)
    (hWF : WF s) (hA : 0 < a) (hP : phone ≠ "")
    (hR : findReceiver s (normalizePhoneCandidates phone) (last10Of (digitsOnlyOf phone)) =
      some rcv)
    (hDiff : (findUser s uid).map User.phone ≠ some rcv.phone)
    (hSW : findWalletByUser s uid = some sw)
    (hBal : a ≤ sw.balance) :
    (∃ d, (transfer s uid a phone cur desc).2 = OpResult.ok d) ∧
    userBalance (transfer s uid a phone cur desc).1 uid = userBalance s uid - a ∧
    userBalance (transfer s uid a phone cur desc).1 rcv.id = userBalance s rcv.id + a ∧
    (∃ t, (transfer s uid a phone cur desc).1.txns = s.txns ++ [t] ∧
      t.type = TxType.TRANSFER ∧ t.status = TxStatus.COMPLETED ∧ t.amount = a ∧
      t.senderUserId = some uid ∧ t.senderWalletId = some sw.id ∧
      t.receiverUserId = some rcv.id ∧ t.receiverWalletId.isSome = true) ∧
    sumBalances (transfer s uid a phone cur desc).1 = sumBalances s := by
  obtain ⟨hndU, hndW, hndWU, hlt⟩ := hWF
  have hA' : ¬ a ≤ 0 := not_le.mpr hA
  have hBal' : ¬ sw.balance < a := not_lt.mpr hBal
  have hswmem : sw ∈ s.wallets := (findWalletByUser_mem hSW).1
  have hsw_uid : sw.userId = uid := (findWalletByUser_mem hSW).2
  have hrcvmem : rcv ∈ s.users := List.mem_of_find?_eq_some hR
  have hfSW : List.find? (fun w => w.userId == uid) s.wallets = some sw := hSW
  have hS : selfTransferCheck (findUser s uid) rcv = false := by
    cases hu : findUser s uid with
    | none => rfl
    | some su =>
      have hne : su.phone ≠ rcv.phone := by
        intro he
        exact hDiff (by rw [hu, Option.map_some', he])
      cases hsp : su.phone with
      | none => simp [selfTransferCheck, hsp]
      | some p =>
        cases hrp : rcv.phone with
        | none => simp [selfTransferCheck, hsp, hrp]
        | some q =>
          have hpq : p ≠ q := fun h => hne (by rw [hsp, hrp, h])
          simp [selfTransferCheck, hsp, hrp, hpq]
  have hne_uid : uid ≠ rcv.id := by
    intro he
    have hsome : (s.users.find? (fun u => u.id == uid)).isSome := by
      rw [List.find?_isSome]
      exact ⟨rcv, hrcvmem, by simp [he]⟩
    obtain ⟨su, hsu⟩ := Option.isSome_iff_exists.mp hsome
    have hsu_mem := List.mem_of_find?_eq_some hsu
    have hsu_id : su.id = uid := by simpa using List.find?_some hsu
    have heq : su = rcv :=
      List.inj_on_of_nodup_map hndU hsu_mem hrcvmem (by rw [hsu_id, he])
    refine hDiff ?_
    show (findUser s uid).map User.phone = some rcv.phone
    unfold findUser
    rw [hsu, heq, Option.map_some']
  cases hRW : findWalletByUser s rcv.id with
  | some rw =>
    have hrwmem : rw ∈ s.wallets := (findWalletByUser_mem hRW).1
    have hrw_uid : rw.userId = rcv.id := (findWalletByUser_mem hRW).2
    have hfRW : List.find? (fun w => w.userId == rcv.id) s.wallets = some rw := hRW
    have hswrw : sw.id ≠ rw.id := by
      intro he
      have heq : sw = rw := List.inj_on_of_nodup_map hndW hswmem hrwmem he
      exact hne_uid (by rw [← hsw_uid, heq, hrw_uid])
    rw [transfer_ok_present hA' hP hR hS hSW hBal' hRW]
    refine ⟨⟨_, rfl⟩, ?_, ?_, ⟨_, rfl, rfl, rfl, rfl, rfl, rfl, rfl, rfl⟩, ?_⟩
    · unfold userBalance findWalletByUser
      dsimp only
      rw [updateBalance_find? Wallet.userId (fun w q => rfl),
          updateBalance_find? Wallet.userId (fun w q => rfl), hfSW]
      simp [hswrw, sub_eq_add_neg]
    · unfold userBalance findWalletByUser
      dsimp only
      rw [updateBalance_find? Wallet.userId (fun w q => rfl),
          updateBalance_find? Wallet.userId (fun w q => rfl), hfRW]
      simp [Ne.symm hswrw]
    · unfold sumBalances
      dsimp only
      rw [sum_updateBalance, updateBalance_countP, sum_updateBalance,
          countP_id_eq_one hndW hswmem, countP_id_eq_one hndW hrwmem]
      push_cast
      ring
  | none =>
    have hfRW : List.find? (fun w => w.userId == rcv.id) s.wallets = none := hRW
    have hnsw : s.nextWalletId ≠ sw.id := ne_of_gt (hlt sw hswmem)
    rw [transfer_ok_absent hA' hP hR hS hSW hBal' hRW]
    refine ⟨⟨_, rfl⟩, ?_, ?_, ⟨_, rfl, rfl, rfl, rfl, rfl, rfl, rfl, rfl⟩, ?_⟩
    · unfold userBalance findWalletByUser
      dsimp only
      rw [updateBalance_find? Wallet.userId (fun w q => rfl),
          updateBalance_find? Wallet.userId (fun w q => rfl), List.find?_append, hfSW]
      simp [ne_of_lt (hlt sw hswmem), hnsw, sub_eq_add_neg]
    · unfold userBalance findWalletByUser
      dsimp only
      rw [updateBalance_find? Wallet.userId (fun w q => rfl),
          updateBalance_find? Wallet.userId (fun w q => rfl), List.find?_append, hfRW]
      simp [hnsw]
    · have hc0 : List.countP (fun w => w.id == s.nextWalletId) s.wallets = 0 :=
        List.countP_eq_zero.mpr (fun w hw => by simp [ne_of_lt (hlt w hw)])
      have hc1 : List.countP (fun w => w.id == sw.id) s.wallets = 1 :=
        countP_id_eq_one hndW hswmem
      unfold sumBalances
      dsimp only
      rw [sum_updateBalance, updateBalance_countP, sum_updateBalance,
          List.countP_append, List.countP_append, List.map_append, List.sum_append,
          hc0, hc1]
      simp [hnsw]

theorem transfer_moves_amount_conserves_sum_witness :
    userBalance
      (transfer { users := [{ id := 1, phone := some "+15550199" },
                            { id := 2, phone := some "+15550100" }],
                  wallets := [{ id := 0, userId := 1, balance := 1300, currency := "USD" }],
                  txns := [], nextWalletId := 1 } 1 300 "+1-555-0100" "USD" "t").1 1 =
      userBalance { users := [{ id := 1, phone := some "+15550199" },
                              { id := 2, phone := some "+15550100" }],
                    wallets := [{ id := 0, userId := 1, balance := 1300, currency := "USD" }],
                    txns := [], nextWalletId := 1 } 1 - 300 ∧
    sumBalances
      (transfer { users := [{ id := 1, phone := some "+15550199" },
                            { id := 2, phone := some "+15550100" }],
                  wallets := [{ id := 0, userId := 1, balance := 1300, currency := "USD" }],
                  txns := [], nextWalletId := 1 } 1 300 "+1-555-0100" "USD" "t").1 =
      sumBalances { users := [{ id := 1, phone := some "+15550199" },
                              { id := 2, phone := some "+15550100" }],
                    wallets := [{ id := 0, userId := 1, balance := 1300, currency := "USD" }],
                    txns := [], nextWalletId := 1 } :=
  ⟨(transfer_moves_amount_conserves_sum
      { users := [{ id := 1, phone := some "+15550199" },
                  { id := 2, phone := some "+15550100" }],
        wallets := [{ id := 0, userId := 1, balance := 1300, currency := "USD" }],
        txns := [], nextWalletId := 1 } 1 300 "+1-555-0100" "USD" "t"
      { id := 2, phone := some "+15550100" }
      { id := 0, userId := 1, balance := 1300, currency := "USD" }
      (by decide) (by norm_num) (by decide) (by decide) (by decide) (by decide)
      (by norm_num)).2.1,
   (transfer_moves_amount_conserves_sum
      { users := [{ id := 1, phone := some "+15550199" },
                  { id := 2, phone := some "+15550100" }],
        wallets := [{ id := 0, userId := 1, balance := 1300, currency := "USD" }],
        txns := [], nextWalletId := 1 } 1 300 "+1-555-0100" "USD" "t"
      { id := 2, phone := some "+15550100" }
      { id := 0, userId := 1, balance := 1300, currency := "USD" }
      (by decide) (by norm_num) (by decide) (by decide) (by decide) (by decide)
      (by norm_num)).2.2.2.2⟩

theorem getOrCreateWallet_nonneg {s : St} {uid : ℕ} (hNN : NonNegBalances s) :
    NonNegBalances (getOrCreateWallet s uid).1 := by
  unfold getOrCreateWallet
  split
  · exact hNN
  · intro w hw
    rcases List.mem_append.mp hw with h | h
    · exact hNN w h
    · simp at h
      rw [h]
      norm_num

theorem deposit_nonneg {s : St} {uid : ℕ} {a : ℚ} {cur desc : String}
    (hNN : NonNegBalances s) : NonNegBalances (deposit s uid a cur desc).1 := by
  unfold deposit
  split
  · exact hNN
  rename_i hA
  have hpos : 0 < a := not_le.mp hA
  split
  · intro w hw
    exact nonneg_updateBalance hNN
      (fun w' hw' _ => add_nonneg (hNN w' hw') (le_of_lt hpos)) w hw
  · intro w hw
    rcases List.mem_append.mp hw with h | h
    · exact hNN w h
    · simp at h
      rw [h]
      exact le_of_lt hpos

theorem withdraw_nonneg {s : St} {uid : ℕ} {a : ℚ} {cur desc : String}
    (hWF : WF s) (hNN : NonNegBalances s) : NonNegBalances (withdraw s uid a cur desc).1 := by
  unfold withdraw
  split
  · exact hNN
  rename_i hA
  split
  · exact hNN
  rename_i w0 heq
  split
  · exact hNN
  rename_i hb
  intro w hw
  refine nonneg_updateBalance hNN ?_ w hw
  intro w' hw' hid
  have heqw : w' = w0 :=
    List.inj_on_of_nodup_map hWF.2.1 hw' (findWalletByUser_mem heq).1 (by rw [hid])
  rw [heqw]
  linarith [not_lt.mp hb]

theorem transfer_nonneg {s : St} {uid : ℕ} {a : ℚ} {phone cur desc : String}
    (hWF : WF s) (hNN : NonNegBalances s) :
    NonNegBalances (transfer s uid a phone cur desc).1 := by
  obtain ⟨hndU, hndW, hndWU, hlt⟩ := hWF
  unfold transfer
  split
  · exact hNN
  rename_i hA
  have hpos : 0 < a := not_le.mp hA
  split
  · exact hNN
  rename_i hP
  dsimp only
  split
  · exact hNN
  rename_i rcv hR
  split
  · exact hNN
  rename_i hS
  split
  · exact hNN
  rename_i sw hSW
  split
  · exact hNN
  rename_i hb
  have hswmem : sw ∈ s.wallets := (findWalletByUser_mem hSW).1
  have hbal : a ≤ sw.balance := not_lt.mp hb
  cases hRW : findWalletByUser s rcv.id with
  | some rw =>
    dsimp only
    have hdec : ∀ w' ∈ updateBalance s.wallets sw.id (-a), 0 ≤ w'.balance := by
      refine nonneg_updateBalance hNN ?_
      intro w' hw' hid
      have heqw : w' = sw := List.inj_on_of_nodup_map hndW hw' hswmem (by rw [hid])
      rw [heqw]
      linarith
    intro w hw
    refine nonneg_updateBalance hdec (fun w' hw' _ => by linarith [hdec w' hw']) w hw
  | none =>
    dsimp only
    have hbase : ∀ w' ∈ s.wallets ++
        [{ id := s.nextWalletId, userId := rcv.id, balance := 0, currency := cur }],
        0 ≤ w'.balance := by
      intro w' hw'
      rcases List.mem_append.mp hw' with h | h
      · exact hNN w' h
      · simp at h
        rw [h]
    have hdec : ∀ w' ∈ updateBalance (s.wallets ++
        [{ id := s.nextWalletId, userId := rcv.id, balance := 0, currency := cur }])
        sw.id (-a), 0 ≤ w'.balance := by
      refine nonneg_updateBalance hbase ?_
      intro w' hw' hid
      rcases List.mem_append.mp hw' with h | h
      · have heqw : w' = sw := List.inj_on_of_nodup_map hndW h hswmem (by rw [hid])
        rw [heqw]
        linarith
      · simp at h
        rw [h] at hid
        exact absurd hid (ne_of_gt (hlt sw hswmem))
    intro w hw
    refine nonneg_updateBalance hdec (fun w' hw' _ => by linarith [hdec w' hw']) w hw

/-- C2: every wallet-ledger operation (getOrCreateWallet, deposit, withdraw,
transfer) preserves non-negativity of all wallet balances: from a
well-formed state in which every balance is ≥ 0, no operation produces a
post-state containing a negative balance. -/
theorem every_op_preserves_nonneg (s : St) (op : Op) (hWF : WF s)
    (hNN : NonNegBalances s) : NonNegBalances (applyOp s op) := by
  cases op with
  | getWallet uid => exact getOrCreateWallet_nonneg hNN
  | deposit uid a c d => exact deposit_nonneg hNN
  | withdraw uid a c d => exact withdraw_nonneg hWF hNN
  | transfer uid a p c d => exact transfer_nonneg hWF hNN

theorem every_op_preserves_nonneg_witness :
    WF { users := [{ id := 1, phone := some "+15550199" }],
         wallets := [{ id := 0, userId := 1, balance := 20, currency := "USD" }],
         txns := [], nextWalletId := 1 } ∧
    NonNegBalances { users := [{ id := 1, phone := some "+15550199" }],
                     wallets := [{ id := 0, userId := 1, balance := 20, currency := "USD" }],
                     txns := [], nextWalletId := 1 } ∧
    NonNegBalances (applyOp { users := [{ id := 1, phone := some "+15550199" }],
                              wallets := [{ id := 0, userId := 1, balance := 20, currency := "USD" }],
                              txns := [], nextWalletId := 1 } (Op.withdraw 1 20 "USD" "w")) :=
  ⟨by decide, by decide,
   every_op_preserves_nonneg
     { users := [{ id := 1, phone := some "+15550199" }],
       wallets := [{ id := 0, userId := 1, balance := 20, currency := "USD" }],
       txns := [], nextWalletId := 1 } (Op.withdraw 1 20 "USD" "w") (by decide) (by decide)⟩

theorem updateBalance_keeps (ws : List Wallet) (wid : ℕ) (d : ℚ) :
    ∀ w ∈ ws, ∃ w2 ∈ updateBalance ws wid d,
      w2.id = w.id ∧ w2.userId = w.userId ∧ w2.currency = w.currency := by
  intro w hw
  refine ⟨if w.id = wid then { w with balance := w.balance + d } else w,
    List.mem_map_of_mem _ hw, ?_⟩
  split <;> exact ⟨rfl, rfl, rfl⟩

theorem updateBalance_from (ws : List Wallet) (wid : ℕ) (d : ℚ) :
    ∀ w2 ∈ updateBalance ws wid d, ∃ w ∈ ws, w2.id = w.id ∧ w2.currency = w.currency := by
  intro w2 hw2
  rcases List.mem_map.mp hw2 with ⟨w, hw, rfl⟩
  refine ⟨w, hw, ?_⟩
  split <;> exact ⟨rfl, rfl⟩

theorem recolor_findWallet (f : ℕ → String) (s : St) (uid : ℕ) :
    findWalletByUser (recolor f s) uid =
      (findWalletByUser s uid).map (fun w => { w with currency := f w.id }) := by
  unfold findWalletByUser recolor
  dsimp only
  rw [List.find?_map]
  rfl

theorem opError_recolor (s : St) (op : Op) (f : ℕ → String) :
    opError (recolor f s) op = opError s op := by
  cases op with
  | getWallet uid => rfl
  | deposit uid a c d =>
    unfold opError
    by_cases hA : a ≤ 0
    · simp [deposit, hA]
    · cases hF : findWalletByUser s uid <;>
        simp [deposit, hA, recolor_findWallet, hF]
  | withdraw uid a c d =>
    unfold opError
    by_cases hA : a ≤ 0
    · simp [withdraw, hA]
    · cases hF : findWalletByUser s uid with
      | none => simp [withdraw, hA, recolor_findWallet, hF]
      | some w =>
        by_cases hb : w.balance < a <;>
          simp [withdraw, hA, recolor_findWallet, hF, hb]
  | transfer uid a p c d =>
    unfold opError
    by_cases hA : a ≤ 0
    · simp [transfer, hA]
    by_cases hP : p = ""
    · simp [transfer, hA, hP]
    have hRecv : ∀ cs l, findReceiver (recolor f s) cs l = findReceiver s cs l := fun cs l => rfl
    have hUser : findUser (recolor f s) uid = findUser s uid := rfl
    cases hR : findReceiver s (normalizePhoneCandidates p) (last10Of (digitsOnlyOf p)) with
    | none => simp [transfer, hA, hP, hRecv, hR]
    | some rcv =>
      by_cases hS : selfTransferCheck (findUser s uid) rcv = true
      · simp [transfer, hA, hP, hRecv, hR, hUser, hS]
      cases hF : findWalletByUser s uid with
      | none => simp [transfer, hA, hP, hRecv, hR, hUser, hS, recolor_findWallet, hF]
      | some sw =>
        by_cases hb : sw.balance < a <;>
          simp [transfer, hA, hP, hRecv, hR, hUser, hS, recolor_findWallet, hF, hb]

/-- C10: no operation changes the currency of an existing wallet row; the
request currency appears only on newly created wallets and on the appended
transaction record; and no handler reads a stored wallet currency, so the
reported error (or success) is unchanged under any repainting of stored
wallet currencies. -/
theorem currency_frame (s : St) (op : Op) :
    (∀ w ∈ s.wallets, ∃ w2 ∈ (applyOp s op).wallets,
       w2.id = w.id ∧ w2.userId = w.userId ∧ w2.currency = w.currency) ∧
    (∀ t ∈ (applyOp s op).txns, t ∈ s.txns ∨ t.currency = opCurrency op) ∧
    (∀ w2 ∈ (applyOp s op).wallets,
       (∃ w ∈ s.wallets, w2.id = w.id ∧ w2.currency = w.currency) ∨
       w2.currency = opCurrency op) ∧
    (∀ f, opError (recolor f s) op = opError s op) := by
  have part1 : ∀ w ∈ s.wallets, ∃ w2 ∈ (applyOp s op).wallets,
      w2.id = w.id ∧ w2.userId = w.userId ∧ w2.currency = w.currency := by
    cases op with
    | getWallet uid =>
      simp only [applyOp]
      unfold getOrCreateWallet
      split
      · exact fun w hw => ⟨w, hw, rfl, rfl, rfl⟩
      · exact fun w hw => ⟨w, List.mem_append_left _ hw, rfl, rfl, rfl⟩
    | deposit uid a c d =>
      simp only [applyOp]
      unfold deposit
      split
      · exact fun w hw => ⟨w, hw, rfl, rfl, rfl⟩
      split
      · exact updateBalance_keeps s.wallets _ a
      · exact fun w hw => ⟨w, List.mem_append_left _ hw, rfl, rfl, rfl⟩
    | withdraw uid a c d =>
      simp only [applyOp]
      unfold withdraw
      split
      · exact fun w hw => ⟨w, hw, rfl, rfl, rfl⟩
      split
      · exact fun w hw => ⟨w, hw, rfl, rfl, rfl⟩
      split
      · exact fun w hw => ⟨w, hw, rfl, rfl, rfl⟩
      · exact updateBalance_keeps s.wallets _ (-a)
    | transfer uid a p c d =>
      simp only [applyOp]
      unfold transfer
      split
      · exact fun w hw => ⟨w, hw, rfl, rfl, rfl⟩
      split
      · exact fun w hw => ⟨w, hw, rfl, rfl, rfl⟩
      dsimp only
      split
      · exact fun w hw => ⟨w, hw, rfl, rfl, rfl⟩
      rename_i rcv hR
      split
      · exact fun w hw => ⟨w, hw, rfl, rfl, rfl⟩
      split
      · exact fun w hw => ⟨w, hw, rfl, rfl, rfl⟩
      rename_i sw hSW
      split
      · exact fun w hw => ⟨w, hw, rfl, rfl, rfl⟩
      cases hRW : findWalletByUser s rcv.id with
      | none =>
        dsimp only
        intro w hw
        obtain ⟨w1, hw1, h1⟩ :=
          updateBalance_keeps
            (s.wallets ++
              [{ id := s.nextWalletId, userId := rcv.id, balance := 0, currency := c }])
            sw.id (-a) w (List.mem_append_left _ hw)
        obtain ⟨w2, hw2, h2⟩ := updateBalance_keeps _ s.nextWalletId a w1 hw1
        exact ⟨w2, hw2, by rw [h2.1, h1.1], by rw [h2.2.1, h1.2.1], by rw [h2.2.2, h1.2.2]⟩
      | some rw =>
        dsimp only
        intro w hw
        obtain ⟨w1, hw1, h1⟩ := updateBalance_keeps s.wallets sw.id (-a) w hw
        obtain ⟨w2, hw2, h2⟩ := updateBalance_keeps _ rw.id a w1 hw1
        exact ⟨w2, hw2, by rw [h2.1, h1.1], by rw [h2.2.1, h1.2.1], by rw [h2.2.2, h1.2.2]⟩
  have part2 : ∀ t ∈ (applyOp s op).txns, t ∈ s.txns ∨ t.currency = opCurrency op := by
    cases op with
    | getWallet uid =>
      simp only [applyOp]
      unfold getOrCreateWallet
      split <;> exact fun t ht => Or.inl ht
    | deposit uid a c d =>
      simp only [applyOp]
      unfold deposit
      split
      · exact fun t ht => Or.inl ht
      split <;> intro t ht <;> rcases List.mem_append.mp ht with h | h
      · exact Or.inl h
      · simp at h
        rw [h]
        exact Or.inr rfl
      · exact Or.inl h
      · simp at h
        rw [h]
        exact Or.inr rfl
    | withdraw uid a c d =>
      simp only [applyOp]
      unfold withdraw
      split
      · exact fun t ht => Or.inl ht
      split
      · exact fun t ht => Or.inl ht
      split
      · exact fun t ht => Or.inl ht
      intro t ht
      rcases List.mem_append.mp ht with h | h
      · exact Or.inl h
      · simp at h
        rw [h]
        exact Or.inr rfl
    | transfer uid a p c d =>
      simp only [applyOp]
      unfold transfer
      split
      · exact fun t ht => Or.inl ht
      split
      · exact fun t ht => Or.inl ht
      dsimp only
      split
      · exact fun t ht => Or.inl ht
      rename_i rcv hR
      split
      · exact fun t ht => Or.inl ht
      split
      · exact fun t ht => Or.inl ht
      rename_i sw hSW
      split
      · exact fun t ht => Or.inl ht
      cases hRW : findWalletByUser s rcv.id <;> dsimp only <;> intro t ht <;>
        rcases List.mem_append.mp ht with h | h
      · exact Or.inl h
      · simp at h
        rw [h]
        exact Or.inr rfl
      · exact Or.inl h
      · simp at h
        rw [h]
        exact Or.inr rfl
  have part3 : ∀ w2 ∈ (applyOp s op).wallets,
      (∃ w ∈ s.wallets, w2.id = w.id ∧ w2.currency = w.currency) ∨
      w2.currency = opCurrency op := by
    cases op with
    | getWallet uid =>
      simp only [applyOp]
      unfold getOrCreateWallet
      split
      · exact fun w2 hw2 => Or.inl ⟨w2, hw2, rfl, rfl⟩
      intro w2 hw2
      rcases List.mem_append.mp hw2 with h | h
      · exact Or.inl ⟨w2, h, rfl, rfl⟩
      · simp at h
        rw [h]
        exact Or.inr rfl
    | deposit uid a c d =>
      simp only [applyOp]
      unfold deposit
      split
      · exact fun w2 hw2 => Or.inl ⟨w2, hw2, rfl, rfl⟩
      split
      · intro w2 hw2
        obtain ⟨w, hw, h⟩ := updateBalance_from s.wallets _ a w2 hw2
        exact Or.inl ⟨w, hw, h⟩
      · intro w2 hw2
        rcases List.mem_append.mp hw2 with h | h
        · exact Or.inl ⟨w2, h, rfl, rfl⟩
        · simp at h
          rw [h]
          exact Or.inr rfl
    | withdraw uid a c d =>
      simp only [applyOp]
      unfold withdraw
      split
      · exact fun w2 hw2 => Or.inl ⟨w2, hw2, rfl, rfl⟩
      split
      · exact fun w2 hw2 => Or.inl ⟨w2, hw2, rfl, rfl⟩
      split
      · exact fun w2 hw2 => Or.inl ⟨w2, hw2, rfl, rfl⟩
      intro w2 hw2
      obtain ⟨w, hw, h⟩ := updateBalance_from s.wallets _ (-a) w2 hw2
      exact Or.inl ⟨w, hw, h⟩
    | transfer uid a p c d =>
      simp only [applyOp]
      unfold transfer
      split
      · exact fun w2 hw2 => Or.inl ⟨w2, hw2, rfl, rfl⟩
      split
      · exact fun w2 hw2 => Or.inl ⟨w2, hw2, rfl, rfl⟩
      dsimp only
      split
      · exact fun w2 hw2 => Or.inl ⟨w2, hw2, rfl, rfl⟩
      rename_i rcv hR
      split
      · exact fun w2 hw2 => Or.inl ⟨w2, hw2, rfl, rfl⟩
      split
      · exact fun w2 hw2 => Or.inl ⟨w2, hw2, rfl, rfl⟩
      rename_i sw hSW
      split
      · exact fun w2 hw2 => Or.inl ⟨w2, hw2, rfl, rfl⟩
      cases hRW : findWalletByUser s rcv.id with
      | none =>
        dsimp only
        intro w2 hw2
        obtain ⟨w1, hw1, h1⟩ := updateBalance_from _ s.nextWalletId a w2 hw2
        obtain ⟨w0, hw0, h0⟩ := updateBalance_from _ sw.id (-a) w1 hw1
        rcases List.mem_append.mp hw0 with h | h
        · exact Or.inl ⟨w0, h, by rw [h1.1, h0.1], by rw [h1.2, h0.2]⟩
        · simp at h
          rw [h] at h0
          refine Or.inr ?_
          rw [h1.2, h0.2]
          rfl
      | some rw =>
        dsimp only
        intro w2 hw2
        obtain ⟨w1, hw1, h1⟩ := updateBalance_from _ rw.id a w2 hw2
        obtain ⟨w0, hw0, h0⟩ := updateBalance_from _ sw.id (-a) w1 hw1
        exact Or.inl ⟨w0, hw0, by rw [h1.1, h0.1], by rw [h1.2, h0.2]⟩
  exact ⟨part1, part2, part3, fun f => opError_recolor s op f⟩

theorem currency_frame_witness :
    ({ id := 0, userId := 1, balance := 20, currency := "EUR" } : Wallet) ∈
      ({ users := [{ id := 1, phone := some "+15550199" }],
         wallets := [{ id := 0, userId := 1, balance := 20, currency := "EUR" }],
         txns := [], nextWalletId := 1 } : St).wallets ∧
    ∃ w2 ∈ (applyOp { users := [{ id := 1, phone := some "+15550199" }],
                      wallets := [{ id := 0, userId := 1, balance := 20, currency := "EUR" }],
                      txns := [], nextWalletId := 1 } (Op.deposit 1 5 "USD" "d")).wallets,
      w2.id = 0 ∧ w2.userId = 1 ∧ w2.currency = "EUR" :=
  ⟨by decide,
   (currency_frame { users := [{ id := 1, phone := some "+15550199" }],
                     wallets := [{ id := 0, userId := 1, balance := 20, currency := "EUR" }],
                     txns := [], nextWalletId := 1 } (Op.deposit 1 5 "USD" "d")).1
     { id := 0, userId := 1, balance := 20, currency := "EUR" } (by decide)⟩

end PiggyBank
